import Mathlib

/-!
Shallow embedding of django-warrant's authentication backend
(src/django_warrant/backend.py) and verification of its specification.

Python dictionaries over string keys are modelled as association lists in
insertion order; updating an existing key replaces its value in place, as
CPython dicts do.  Python exceptions are modelled with Except.  The parts of
the program that live outside backend.py (the warrant library's remote calls
and django_warrant.utils.cognito_to_dict) are modelled from the spec and are
marked as such in their doc comments.
-/

namespace DjangoWarrant

/-- Equality of modelled call outcomes is decidable, so witnesses can be
checked by evaluation. -/
instance {ε α : Type} [DecidableEq ε] [DecidableEq α] :
    DecidableEq (Except ε α) := fun a b =>
  match a, b with
  | .ok x, .ok y =>
      if h : x = y then .isTrue (by rw [h])
      else .isFalse (fun hc => h (Except.ok.inj hc))
  | .error x, .error y =>
      if h : x = y then .isTrue (by rw [h])
      else .isFalse (fun hc => h (Except.error.inj hc))
  | .ok _, .error _ => .isFalse (fun hc => Except.noConfusion hc)
  | .error _, .ok _ => .isFalse (fun hc => Except.noConfusion hc)

/-- A Python value stored in a user-attribute dictionary: attribute values
arrive from Cognito as strings and may be turned into integers by the
relation-id coercion in get_user_obj. -/
inductive Value where
  | str (s : String)
  | int (i : Int)
deriving DecidableEq, Repr

/-- A Python dict with string keys, as an association list in insertion
order. -/
abbrev Dict (α : Type) := List (String × α)

/-- Dict lookup: d.get(k) / d[k]. -/
def dget {α : Type} (d : Dict α) (k : String) : Option α :=
  (d.find? (fun p => p.1 == k)).map Prod.snd

/-- Dict write d[k] = v: replaces the value of an existing key in place,
otherwise appends the new binding, as CPython dicts do. -/
def dset {α : Type} (d : Dict α) (k : String) (v : α) : Dict α :=
  if d.any (fun p => p.1 == k) then
    d.map (fun p => if p.1 == k then (k, v) else p)
  else
    d ++ [(k, v)]

/-- Apply a sequence of dict writes: used for Django's update-with-defaults
and for the setattr loop of the updates-only branch. -/
def dsetAll {α : Type} (d : Dict α) (l : Dict α) : Dict α :=
  l.foldl (fun a p => dset a p.1 p.2) d

/-- The keys of a dict. -/
def dkeys {α : Type} (d : Dict α) : List String :=
  d.map Prod.fst

/-- Modelled from the spec: django_warrant.utils.cognito_to_dict is not under
src/.  Per the spec it takes a list of remote attribute records (name/value
pairs) and a name-translation table and produces a flat mapping from the
(possibly translated) name to the value; names not present in the table pass
through unchanged, and each translated key appears at most once (later
records overwrite earlier ones, as dict assignment does). -/
def cognito_to_dict (attribute_list : List (String × String))
    (mapping : Dict String) : Dict Value :=
  attribute_list.foldl
    (fun d p => dset d ((dget mapping p.1).getD p.1) (Value.str p.2)) []

/-- One field of the local Django user model schema
(user_class._meta.get_fields()). -/
structure Field where
  name : String
  is_relation : Bool
deriving DecidableEq, Repr

/-- backend.py lines 29-30: the list of local schema field names, with
relation fields contributing their attname with the id suffix. -/
def django_fields (fields : List Field) : List String :=
  fields.map (fun f => if f.is_relation then f.name ++ "_id" else f.name)

/-- str.endswith, over the string's character list. -/
def strEndsWith (s suffix : String) : Bool :=
  List.isSuffixOf suffix.data s.data

/-- The numeric value of a decimal digit character. -/
def digitVal? (c : Char) : Option Nat :=
  if c.isDigit then some (c.toNat - 48) else none

/-- The value of a non-empty all-digit character list, none otherwise. -/
def natOfDigits (cs : List Char) : Option Nat :=
  match cs with
  | [] => none
  | _ =>
      cs.foldl
        (fun acc c =>
          match acc, digitVal? c with
          | some a, some d => some (a * 10 + d)
          | _, _ => none)
        (some 0)

/-- Whitespace trimming at both ends of a character list. -/
def pyTrim (cs : List Char) : List Char :=
  ((cs.dropWhile Char.isWhitespace).reverse.dropWhile Char.isWhitespace).reverse

/-- Python's int(...) on a string: optional surrounding whitespace, optional
sign, then decimal digits.  None models a ValueError. -/
def pyInt (s : String) : Option Int :=
  match pyTrim s.data with
  | '-' :: rest => (natOfDigits rest).map (fun n => -(n : Int))
  | '+' :: rest => (natOfDigits rest).map (fun n => (n : Int))
  | t => (natOfDigits t).map (fun n => (n : Int))

/-- A Python exception that can escape get_user_obj. -/
inductive PyErr where
  | valueError (v : Value)
  | integrityError (username : String)
deriving DecidableEq, Repr

/-- Python's int(...) on an attribute value; a non-numeric string raises
ValueError. -/
def pyIntV : Value → Except PyErr Int
  | .str s =>
      match pyInt s with
      | some i => .ok i
      | none => .error (.valueError (.str s))
  | .int i => .ok i

/-- backend.py lines 37-39: for every key of user_attrs ending in "_id",
replace its value by int(value); other entries are untouched.  A coercion
failure propagates. -/
def coerceIds : Dict Value → Except PyErr (Dict Value)
  | [] => .ok []
  | (k, v) :: rest =>
      if strEndsWith k "_id" then
        match pyIntV v with
        | .ok i =>
            match coerceIds rest with
            | .ok r => .ok ((k, Value.int i) :: r)
            | .error e => .error e
        | .error e => .error e
      else
        match coerceIds rest with
        | .ok r => .ok ((k, v) :: r)
        | .error e => .error e

/-- A persisted local user record: username, staff flag, the schema-backed
attribute values that have been written, and group memberships. -/
structure UserRec where
  username : String
  is_staff : Bool
  attrs : Dict Value
  groups : List String
deriving DecidableEq, Repr

/-- The user object returned by get_user_obj: the persisted record plus the
ad hoc (non-persisted) extra attributes set on the instance. -/
structure UserObj where
  record : UserRec
  extras : Dict Value
deriving DecidableEq, Repr

/-- The ORM-visible state: the user table and the names of the local Group
records. -/
structure DB where
  users : List UserRec
  groupNames : List String
deriving DecidableEq, Repr

/-- The Django settings object.  Fields read with getattr defaults are
Options; a None means the setting is absent. -/
structure Settings where
  COGNITO_USER_POOL_ID : String
  COGNITO_APP_ID : String
  AWS_ACCESS_KEY_ID : Option String
  AWS_SECRET_ACCESS_KEY : Option String
  COGNITO_ATTR_MAPPING : Option (Dict String)
  COGNITO_CREATE_UNKNOWN_USERS : Option Bool
  COGNITO_ALLOW_BACKEND_ACCESS : Option Bool
deriving DecidableEq, Repr

/-- backend.py lines 19-25: the default attribute-name translation table. -/
def defaultAttrMapping : Dict String :=
  [("email", "email"), ("given_name", "first_name"),
   ("family_name", "last_name")]

/-- backend.py lines 18-25: CognitoUser.COGNITO_ATTR_MAPPING is a class
attribute, evaluated once when the class body runs at module load, from the
settings in force at that moment. -/
def loadAttrMapping (atLoad : Settings) : Dict String :=
  atLoad.COGNITO_ATTR_MAPPING.getD defaultAttrMapping

/-- Django's update_or_create(username=..., is_staff=..., defaults=...):
look up a record matching BOTH keyword arguments; update it with the
defaults when found; otherwise create a record from the keyword arguments
plus the defaults.  The local user model's username field is unique, so a
create that duplicates an existing username raises IntegrityError. -/
def update_or_create (db : DB) (username : String) (is_staff : Bool)
    (defaults : Dict Value) : Except PyErr (UserRec × Bool × DB) :=
  match db.users.find? (fun u => u.username == username && u.is_staff == is_staff) with
  | some u =>
      let u' : UserRec := { u with attrs := dsetAll u.attrs defaults }
      let users' := db.users.map
        (fun x => if x.username == username && x.is_staff == is_staff then u' else x)
      .ok (u', false, { db with users := users' })
  | none =>
      if db.users.any (fun u => u.username == username) then
        .error (.integrityError username)
      else
        let u' : UserRec :=
          { username := username, is_staff := is_staff,
            attrs := dsetAll [] defaults, groups := [] }
        .ok (u', true, { db with users := db.users ++ [u'] })

/-- user.groups.add(group) for each group: additive set insertion. -/
def addGroups (gs : List String) (names : List String) : List String :=
  names.foldl (fun acc g => if acc.contains g then acc else acc ++ [g]) gs

/-- Write an updated record back over every table row holding this
username and staff flag (the row update_or_create matched). -/
def storeUser (db : DB) (u' : UserRec) : DB :=
  let users' := db.users.map
    (fun x => if x.username == u'.username && x.is_staff == u'.is_staff then u' else x)
  { db with users := users' }

/-- backend.py line 28: the mapped attribute dictionary user_attrs as first
computed. -/
def mapped_attrs (mapping : Dict String)
    (attribute_list : List (String × String)) : Dict Value :=
  cognito_to_dict attribute_list mapping

/-- backend.py lines 31-36: the entries of user_attrs whose keys are not
local schema field names (extra_attrs). -/
def extra_attrs_of (mapping : Dict String) (fields : List Field)
    (attribute_list : List (String × String)) : Dict Value :=
  (mapped_attrs mapping attribute_list).filter
    (fun p => !((django_fields fields).contains p.1))

/-- backend.py lines 31-36: user_attrs after the extra keys are deleted. -/
def known_attrs_of (mapping : Dict String) (fields : List Field)
    (attribute_list : List (String × String)) : Dict Value :=
  (mapped_attrs mapping attribute_list).filter
    (fun p => (django_fields fields).contains p.1)

/-- backend.py lines 27-64, CognitoUser.get_user_obj.  Inputs beyond the
source parameters: mapping is the class attribute COGNITO_ATTR_MAPPING
captured at module load; s is the settings object at call time; fields is
user_class._meta.get_fields(); db is the ORM state; remoteGroups is the
group-name list the admin_list_groups_for_user network call would return.
Returns the (optional) user object and the resulting ORM state, or the
escaping exception. -/
def get_user_obj (mapping : Dict String) (s : Settings)
    (fields : List Field) (db : DB) (remoteGroups : List String)
    (username : String) (attribute_list : List (String × String)) :
    Except PyErr (Option UserObj × DB) :=
  let extra_attrs := extra_attrs_of mapping fields attribute_list
  match coerceIds (known_attrs_of mapping fields attribute_list) with
  | .error e => .error e
  | .ok user_attrs =>
    if s.COGNITO_CREATE_UNKNOWN_USERS.getD true then
      let is_staff := s.COGNITO_ALLOW_BACKEND_ACCESS.getD false
      match update_or_create db username is_staff user_attrs with
      | .error e => .error e
      | .ok (user, _created, db1) =>
        let aws_groups_list := remoteGroups
        let groups := db1.groupNames.filter (fun g => aws_groups_list.contains g)
        let user' : UserRec := { user with groups := addGroups user.groups groups }
        let db2 := storeUser db1 user'
        .ok (some { record := user', extras := extra_attrs }, db2)
    else
      match db.users.find? (fun u => u.username == username) with
      | some u =>
          let u' : UserRec := { u with attrs := dsetAll u.attrs user_attrs }
          let users' := db.users.map
            (fun x => if x.username == username then u' else x)
          let db1 : DB := { db with users := users' }
          .ok (some { record := u', extras := extra_attrs }, db1)
      | none => .ok (none, db)

/-- A botocore ClientError raised by the remote client: the error code at
response.Error.Code plus the rest of the error object (message), so that
object identity is observable.  Modelled from the spec for the raising side:
the warrant library's credential check is not under src/ and per the spec
"raises a classified error". -/
structure ClientError where
  code : String
  message : String
deriving DecidableEq, Repr

/-- The token bundle issued by a successful remote credential check. -/
structure Tokens where
  access_token : String
  id_token : String
  refresh_token : String
deriving DecidableEq, Repr

/-- Modelled from the spec: the outcome of warrant's
Cognito.authenticate(password) followed by admin_get_user — either the token
bundle plus the remote attribute list, or a classified client error. -/
inductive RemoteAuth where
  | success (attribute_list : List (String × String)) (tokens : Tokens)
  | failure (e : ClientError)
deriving DecidableEq, Repr

/-- backend.py line 70. -/
def UNAUTHORIZED_ERROR_CODE : String := "NotAuthorizedException"

/-- backend.py line 72. -/
def USER_NOT_FOUND_ERROR_CODE : String := "UserNotFoundException"

/-- The remote client object constructed at the top of
AbstractCognitoBackend.authenticate (backend.py lines 85-91): every field is
read from the call-time settings. -/
structure CognitoClient where
  user_pool_id : String
  id_client : String
  access_key : Option String
  secret_key : Option String
  username : String
deriving DecidableEq, Repr

/-- backend.py lines 85-91: construct the CognitoUser client from the
settings in force at the call. -/
def mkCognitoUser (s : Settings) (username : String) : CognitoClient :=
  { user_pool_id := s.COGNITO_USER_POOL_ID
    id_client := s.COGNITO_APP_ID
    access_key := s.AWS_ACCESS_KEY_ID
    secret_key := s.AWS_SECRET_ACCESS_KEY
    username := username }

/-- An exception escaping the backend's authenticate: either a Python error
from provisioning or a re-raised remote client error. -/
inductive BackendErr where
  | py (e : PyErr)
  | client (e : ClientError)
deriving DecidableEq, Repr

/-- backend.py lines 102-109, AbstractCognitoBackend.handle_error_response:
an error whose code is one of the two expected authentication-failure codes
yields None; any other error object is re-raised unchanged. -/
def handle_error_response (error : ClientError) :
    Except ClientError (Option Tokens) :=
  if [UNAUTHORIZED_ERROR_CODE, USER_NOT_FOUND_ERROR_CODE].contains error.code
  then .ok none
  else .error error

/-- The user object AbstractCognitoBackend.authenticate returns: the
provisioned user with the three token strings attached as instance
attributes. -/
structure AuthUser where
  obj : UserObj
  access_token : String
  id_token : String
  refresh_token : String
deriving DecidableEq, Repr

/-- backend.py lines 78-100, AbstractCognitoBackend.authenticate.  mapping is
the class attribute COGNITO_ATTR_MAPPING captured at module load; s is the
call-time settings; remote is the outcome the remote credential check
produces for this username/password; remoteGroups is what the group-listing
call would return.  The constructed client is returned alongside the result
so its call-time construction is observable. -/
def abstract_authenticate (mapping : Dict String) (s : Settings)
    (fields : List Field) (db : DB) (remote : RemoteAuth)
    (remoteGroups : List String) (username : String) :
    CognitoClient × Except BackendErr (Option AuthUser × DB) :=
  let cognito_user := mkCognitoUser s username
  match remote with
  | .failure e =>
      match handle_error_response e with
      | .ok _ => (cognito_user, .ok (none, db))
      | .error e' => (cognito_user, .error (.client e'))
  | .success attribute_list tokens =>
      match get_user_obj mapping s fields db remoteGroups username attribute_list with
      | .error e => (cognito_user, .error (.py e))
      | .ok (none, db') => (cognito_user, .ok (none, db'))
      | .ok (some u, db') =>
          (cognito_user,
           .ok (some { obj := u, access_token := tokens.access_token,
                       id_token := tokens.id_token,
                       refresh_token := tokens.refresh_token }, db'))

/-- A Django session store: its key/value data and whether save() has been
called on it during the present call. -/
structure Session where
  data : Dict String
  saved : Bool
deriving DecidableEq, Repr

/-- backend.py lines 112-125, CognitoBackend.authenticate: delegate to the
abstract backend; when a user comes back, write the three tokens into the
request's session under the fixed keys and save the session. -/
def cognito_backend_authenticate (mapping : Dict String) (s : Settings)
    (fields : List Field) (db : DB) (remote : RemoteAuth)
    (remoteGroups : List String) (session : Session) (username : String) :
    Except BackendErr (Option AuthUser × DB × Session) :=
  match (abstract_authenticate mapping s fields db remote remoteGroups username).2 with
  | .error e => .error e
  | .ok (none, db') => .ok (none, db', session)
  | .ok (some user, db') =>
      let d1 := dset session.data "ACCESS_TOKEN" user.access_token
      let d2 := dset d1 "ID_TOKEN" user.id_token
      let d3 := dset d2 "REFRESH_TOKEN" user.refresh_token
      .ok (some user, db', { data := d3, saved := true })


/-! ### Derived record shapes used in statements -/

def freshUser (username : String) (staff : Bool) (ua : Dict Value)
    (gs : List String) : UserRec :=
  { username := username, is_staff := staff, attrs := dsetAll [] ua,
    groups := addGroups [] gs }

def updatedUser (u0 : UserRec) (ua : Dict Value) (gs : List String) : UserRec :=
  { u0 with attrs := dsetAll u0.attrs ua, groups := addGroups u0.groups gs }

/-! ### Concrete fixtures used by witnesses and counterexamples -/

/-- A settings object holding only the required pool and app identifiers. -/
def sDefault : Settings :=
  { COGNITO_USER_POOL_ID := "pool", COGNITO_APP_ID := "app",
    AWS_ACCESS_KEY_ID := none, AWS_SECRET_ACCESS_KEY := none,
    COGNITO_ATTR_MAPPING := none, COGNITO_CREATE_UNKNOWN_USERS := none,
    COGNITO_ALLOW_BACKEND_ACCESS := none }

/-- Settings with the updates-only policy selected. -/
def sNoCreate : Settings :=
  { sDefault with COGNITO_CREATE_UNKNOWN_USERS := some false }

/-- Settings with a non-default attribute translation table. -/
def sMap : Settings :=
  { sDefault with COGNITO_ATTR_MAPPING := some [("email", "last_name")] }

/-- A user-model schema like Django's default User, plus one relation field
named manager (contributing the column name manager_id). -/
def fieldsStd : List Field :=
  [{ name := "id", is_relation := false },
   { name := "username", is_relation := false },
   { name := "first_name", is_relation := false },
   { name := "last_name", is_relation := false },
   { name := "email", is_relation := false },
   { name := "is_staff", is_relation := false },
   { name := "manager", is_relation := true }]

/-- An empty user table with one local group. -/
def dbEmpty : DB := { users := [], groupNames := ["g1"] }

/-- A table holding one staff user alice who is in group g1. -/
def dbAlice : DB :=
  { users := [{ username := "alice", is_staff := true, attrs := [],
                groups := ["g1"] }],
    groupNames := ["g1", "g2"] }

/-- The user object provisioning bob into the alice-only table returns. -/
def bobProvisioned : UserObj :=
  { record :=
      { username := "bob", is_staff := false,
        attrs := [("email", Value.str "b@x")], groups := ["g1"] },
    extras := [("custom", Value.str "z")] }

/-- The table after provisioning bob into the alice-only table. -/
def dbAfterBob : DB :=
  { users := dbAlice.users ++ [bobProvisioned.record],
    groupNames := ["g1", "g2"] }

/-- A table holding one non-staff alice in group g1, with two local
groups. -/
def dbAlice2 : DB :=
  { users := [{ username := "alice", is_staff := false, attrs := [],
                groups := ["g1"] }],
    groupNames := ["g1", "g2"] }

/-- Alice after the group-sync run of the C7 witness. -/
def aliceSynced : UserObj :=
  { record :=
      { username := "alice", is_staff := false,
        attrs := [("email", Value.str "a@x")], groups := ["g1", "g2"] },
    extras := [] }

/-- The table after the group-sync run of the C7 witness. -/
def dbAliceSynced : DB :=
  { users := [aliceSynced.record], groupNames := ["g1", "g2"] }

/-- A concrete token bundle. -/
def tokensT : Tokens :=
  { access_token := "A", id_token := "I", refresh_token := "R" }

/-- A session holding one unrelated key and not yet saved. -/
def sess0 : Session := { data := [("X", "y")], saved := false }

/-- The user object, table and session that the concrete successful
authentication in the C2 witness produces. -/
def bobUser : AuthUser :=
  { obj :=
      { record :=
          { username := "bob", is_staff := false,
            attrs := [("email", Value.str "b@x")], groups := [] },
        extras := [] },
    access_token := "A", id_token := "I", refresh_token := "R" }

/-- The user table after the C2 witness run. -/
def dbBob : DB :=
  { users := [{ username := "bob", is_staff := false,
                attrs := [("email", Value.str "b@x")], groups := [] }],
    groupNames := ["g1"] }

/-- The session after the C2 witness run. -/
def sessBob : Session :=
  { data := [("X", "y"), ("ACCESS_TOKEN", "A"), ("ID_TOKEN", "I"),
             ("REFRESH_TOKEN", "R")], saved := true }

/-! ### Dictionary lemmas -/

theorem dget_cons {α : Type} (p : String × α) (d : Dict α) (k : String) :
    dget (p :: d) k = if p.1 == k then some p.2 else dget d k := by
  by_cases h : (p.1 == k) = true
  · rw [if_pos h]
    simp only [dget, List.find?, h]
    rfl
  · rw [if_neg h]
    simp only [Bool.not_eq_true] at h
    simp only [dget, List.find?, h]

theorem dget_map_set_self {α : Type} (d : Dict α) (k : String) (v : α)
    (hmem : d.any (fun p => p.1 == k) = true) :
    dget (d.map (fun p => if p.1 == k then (k, v) else p)) k = some v := by
  induction d with
  | nil => simp at hmem
  | cons hd tl ih =>
      rw [List.map_cons, dget_cons]
      by_cases h1 : (hd.1 == k) = true
      · rw [if_pos h1]
        rw [show (((k, v) : String × α).1 == k) = true from beq_self_eq_true k]
        rw [if_pos rfl]
      · rw [if_neg h1, if_neg h1]
        rw [List.any_cons] at hmem
        simp only [Bool.not_eq_true] at h1
        rw [h1, Bool.false_or] at hmem
        exact ih hmem

theorem dget_map_set_ne {α : Type} (d : Dict α) (k k' : String) (v : α)
    (hk : k' ≠ k) :
    dget (d.map (fun p => if p.1 == k then (k, v) else p)) k' = dget d k' := by
  induction d with
  | nil => rfl
  | cons hd tl ih =>
      rw [List.map_cons, dget_cons, dget_cons]
      by_cases h1 : (hd.1 == k) = true
      · rw [if_pos h1]
        have h1' : hd.1 = k := by simpa using h1
        have hne : ((k : String) == k') = false := by
          apply beq_eq_false_iff_ne.2
          exact fun h => hk h.symm
        have hne2 : (hd.1 == k') = false := by rw [h1']; exact hne
        rw [show (((k, v) : String × α).1 == k') = false from hne, hne2]
        rw [if_neg (fun h => Bool.noConfusion h), if_neg (fun h => Bool.noConfusion h)]
        exact ih
      · rw [if_neg h1, ih]

theorem dget_isSome_eq_any {α : Type} (d : Dict α) (k : String) :
    (dget d k).isSome = d.any (fun p => p.1 == k) := by
  induction d with
  | nil => rfl
  | cons hd tl ih =>
      rw [dget_cons, List.any_cons]
      by_cases h : (hd.1 == k) = true
      · rw [if_pos h, h, Bool.true_or]
        rfl
      · simp only [Bool.not_eq_true] at h
        rw [if_neg (by rw [h]; exact Bool.false_ne_true), h, Bool.false_or]
        exact ih

theorem dget_append {α : Type} (d e : Dict α) (k : String) :
    dget (d ++ e) k = ((dget d k).orElse (fun _ => dget e k)) := by
  induction d with
  | nil => rfl
  | cons hd tl ih =>
      rw [List.cons_append, dget_cons, dget_cons]
      by_cases h : (hd.1 == k) = true
      · rw [if_pos h, if_pos h]
        rfl
      · rw [if_neg h, if_neg h, ih]

theorem dget_dset {α : Type} (d : Dict α) (k k' : String) (v : α) :
    dget (dset d k v) k' = if k' = k then some v else dget d k' := by
  unfold dset
  by_cases hmem : d.any (fun p => p.1 == k) = true
  · rw [if_pos hmem]
    by_cases hk : k' = k
    · subst hk
      rw [if_pos rfl]
      exact dget_map_set_self d k' v hmem
    · rw [if_neg hk]
      exact dget_map_set_ne d k k' v hk
  · rw [if_neg hmem, dget_append]
    by_cases hk : k' = k
    · subst hk
      have hnone : dget d k' = none := by
        cases hd : dget d k' with
        | none => rfl
        | some w =>
            have h2 := dget_isSome_eq_any d k'
            rw [hd] at h2
            simp only [Bool.not_eq_true] at hmem
            rw [hmem] at h2
            exact absurd h2 (by simp)
      rw [if_pos rfl, hnone]
      show dget [(k', v)] k' = some v
      rw [dget_cons]
      rw [show (((k', v) : String × α).1 == k') = true from beq_self_eq_true k']
      rw [if_pos rfl]
    · rw [if_neg hk]
      have hsing : dget [(k, v)] k' = none := by
        rw [dget_cons]
        rw [show (((k, v) : String × α).1 == k') = false from
          beq_eq_false_iff_ne.2 (fun h => hk h.symm)]
        rw [if_neg (fun h => Bool.noConfusion h)]
        rfl
      rw [hsing]
      cases dget d k' <;> rfl

theorem dget_dsetAll_not_mem {α : Type} (l : Dict α) (d : Dict α) (k : String)
    (h : k ∉ dkeys l) : dget (dsetAll d l) k = dget d k := by
  induction l generalizing d with
  | nil => rfl
  | cons p rest ih =>
      simp only [dkeys, List.map_cons, List.mem_cons, not_or] at h
      show dget (dsetAll (dset d p.1 p.2) rest) k = dget d k
      rw [ih (dset d p.1 p.2) (by simpa [dkeys] using h.2)]
      rw [dget_dset]
      rw [if_neg h.1]

/-! ### Coercion lemmas -/

theorem coerceIds_ok_forall₂ (l r : Dict Value) (h : coerceIds l = .ok r) :
    List.Forall₂
      (fun p q => p.1 = q.1 ∧
        (if strEndsWith p.1 "_id" then
          ∃ i, pyIntV p.2 = Except.ok i ∧ q.2 = Value.int i
         else q.2 = p.2)) l r := by
  induction l generalizing r with
  | nil =>
      simp only [coerceIds] at h
      cases h
      exact List.Forall₂.nil
  | cons p rest ih =>
      obtain ⟨k, v⟩ := p
      by_cases hend : strEndsWith k "_id" = true
      · cases hv : pyIntV v with
        | ok i =>
            cases hr : coerceIds rest with
            | ok r' =>
                simp only [coerceIds, hend, if_true, hv, hr] at h
                cases h
                refine List.Forall₂.cons ⟨rfl, ?_⟩ (ih _ hr)
                rw [if_pos hend]
                exact ⟨i, hv, rfl⟩
            | error e' =>
                simp only [coerceIds, hend, if_true, hv, hr] at h
                exact Except.noConfusion h
        | error e =>
            simp only [coerceIds, hend, if_true, hv] at h
            exact Except.noConfusion h
      · simp only [Bool.not_eq_true] at hend
        cases hr : coerceIds rest with
        | ok r' =>
            simp only [coerceIds, hend, Bool.false_eq_true, if_false, hr] at h
            cases h
            refine List.Forall₂.cons ⟨rfl, ?_⟩ (ih _ hr)
            rw [if_neg (by rw [hend]; exact Bool.false_ne_true)]
        | error e' =>
            simp only [coerceIds, hend, Bool.false_eq_true, if_false, hr] at h
            exact Except.noConfusion h

theorem coerceIds_error_shape (l : Dict Value) (e : PyErr)
    (h : coerceIds l = .error e) :
    ∃ s, e = PyErr.valueError (Value.str s) ∧ pyInt s = none := by
  induction l with
  | nil => simp [coerceIds] at h
  | cons p rest ih =>
      obtain ⟨k, v⟩ := p
      by_cases hend : strEndsWith k "_id" = true
      · cases hv : pyIntV v with
        | ok i =>
            cases hr : coerceIds rest with
            | ok r' =>
                simp only [coerceIds, hend, if_true, hv, hr] at h
                exact Except.noConfusion h
            | error e' =>
                simp only [coerceIds, hend, if_true, hv, hr] at h
                cases h
                exact ih hr
        | error e' =>
            simp only [coerceIds, hend, if_true, hv] at h
            cases h
            cases v with
            | str sv =>
                cases hp : pyInt sv with
                | none =>
                    simp only [pyIntV, hp] at hv
                    cases hv
                    exact ⟨sv, rfl, hp⟩
                | some i =>
                    simp only [pyIntV, hp] at hv
                    exact Except.noConfusion hv
            | int i => simp [pyIntV] at hv
      · simp only [Bool.not_eq_true] at hend
        cases hr : coerceIds rest with
        | ok r' =>
            simp only [coerceIds, hend, Bool.false_eq_true, if_false, hr] at h
            exact Except.noConfusion h
        | error e' =>
            simp only [coerceIds, hend, Bool.false_eq_true, if_false, hr] at h
            cases h
            exact ih hr

theorem dkeys_coerceIds (l r : Dict Value) (h : coerceIds l = .ok r) :
    dkeys r = dkeys l := by
  have hf := coerceIds_ok_forall₂ l r h
  clear h
  induction hf with
  | nil => rfl
  | cons hrel _ ihh =>
      simp only [dkeys, List.map_cons]
      simp only [dkeys] at ihh
      rw [hrel.1, ihh]

theorem dkeys_known_attrs_contains (mapping : Dict String)
    (fields : List Field) (al : List (String × String)) (k : String)
    (h : k ∈ dkeys (known_attrs_of mapping fields al)) :
    (django_fields fields).contains k = true := by
  simp only [known_attrs_of, dkeys, List.mem_map] at h
  obtain ⟨p, hp, rfl⟩ := h
  exact (List.mem_filter.1 hp).2

/-! ### Group lemmas -/

theorem mem_addGroups_left (gs names : List String) (g : String)
    (h : g ∈ gs) : g ∈ addGroups gs names := by
  induction names generalizing gs with
  | nil => exact h
  | cons n ns ih =>
      show g ∈ addGroups (if gs.contains n then gs else gs ++ [n]) ns
      apply ih
      by_cases hc : gs.contains n = true
      · rw [if_pos hc]
        exact h
      · rw [if_neg hc]
        exact List.mem_append_left _ h

theorem mem_addGroups_right (gs names : List String) (g : String)
    (h : g ∈ names) : g ∈ addGroups gs names := by
  induction names generalizing gs with
  | nil => simp at h
  | cons n ns ih =>
      show g ∈ addGroups (if gs.contains n then gs else gs ++ [n]) ns
      rcases List.mem_cons.1 h with rfl | hns
      · apply mem_addGroups_left
        by_cases hc : gs.contains g = true
        · rw [if_pos hc]
          exact by simpa using hc
        · rw [if_neg hc]
          exact List.mem_append_right _ (List.mem_singleton.2 rfl)
      · exact ih _ hns

/-! ### update_or_create lemmas -/

theorem update_or_create_not_found (db : DB) (username : String)
    (staff : Bool) (defaults : Dict Value)
    (habs : ∀ u ∈ db.users, u.username ≠ username) :
    update_or_create db username staff defaults =
      .ok ({ username := username, is_staff := staff,
             attrs := dsetAll [] defaults, groups := [] },
           true,
           { db with users :=
              db.users ++ [{ username := username, is_staff := staff,
                             attrs := dsetAll [] defaults, groups := [] }] }) := by
  unfold update_or_create
  have hfind :
      db.users.find? (fun u => u.username == username && u.is_staff == staff)
        = none := by
    rw [List.find?_eq_none]
    intro x hx
    simp only [Bool.and_eq_true, beq_iff_eq, not_and]
    intro hxu
    exact absurd hxu (habs x hx)
  have hany : db.users.any (fun u => u.username == username) = false := by
    rw [List.any_eq_false]
    intro x hx
    simp only [beq_iff_eq]
    exact habs x hx
  rw [hfind]
  simp [hany]

/-! ### Branch equations for get_user_obj -/

theorem map_store_id (users : List UserRec) (uname : String) (staffb : Bool)
    (u' : UserRec) (habs : ∀ u ∈ users, u.username ≠ uname) :
    users.map (fun x =>
        if x.username == uname && x.is_staff == staffb then u' else x)
      = users := by
  induction users with
  | nil => rfl
  | cons hd tl ih =>
      rw [List.map_cons]
      have h1 : (hd.username == uname) = false :=
        beq_eq_false_iff_ne.2 (habs hd (List.mem_cons_self _ _))
      rw [h1, Bool.false_and, if_neg (fun h => Bool.noConfusion h)]
      rw [ih (fun u hu => habs u (List.mem_cons_of_mem _ hu))]


theorem get_user_obj_create_fresh (mapping : Dict String) (s : Settings)
    (fields : List Field) (db : DB) (rg : List String) (username : String)
    (al : List (String × String)) (ua : Dict Value)
    (hc : s.COGNITO_CREATE_UNKNOWN_USERS.getD true = true)
    (hco : coerceIds (known_attrs_of mapping fields al) = .ok ua)
    (habs : ∀ u ∈ db.users, u.username ≠ username) :
    get_user_obj mapping s fields db rg username al =
      .ok (some { record := freshUser username
                    (s.COGNITO_ALLOW_BACKEND_ACCESS.getD false) ua
                    (db.groupNames.filter (fun g => rg.contains g)),
                  extras := extra_attrs_of mapping fields al },
           { users := db.users ++
                [freshUser username (s.COGNITO_ALLOW_BACKEND_ACCESS.getD false)
                  ua (db.groupNames.filter (fun g => rg.contains g))],
             groupNames := db.groupNames }) := by
  have huoc := update_or_create_not_found db username
    (s.COGNITO_ALLOW_BACKEND_ACCESS.getD false) ua habs
  simp only [get_user_obj, hco, hc, if_true, huoc, storeUser, freshUser]
  rw [List.map_append, map_store_id db.users username _ _ habs,
    List.map_cons, List.map_nil]
  rw [if_pos (by simp)]


theorem map_store_twice (l : List UserRec) (p q : UserRec → Bool)
    (a b : UserRec) (hqa : q a = true) (hpq : ∀ x, q x = p x) :
    (l.map (fun x => if p x then a else x)).map
        (fun x => if q x then b else x)
      = l.map (fun x => if p x then b else x) := by
  rw [List.map_map]
  apply List.map_congr_left
  intro x _
  show (if q (if p x then a else x) = true then b else (if p x then a else x))
      = if p x then b else x
  by_cases hp : p x = true
  · rw [if_pos hp, if_pos hp, hqa, if_pos rfl]
  · rw [if_neg hp, if_neg hp, hpq x, if_neg hp]

theorem get_user_obj_create_found (mapping : Dict String) (s : Settings)
    (fields : List Field) (db : DB) (rg : List String) (username : String)
    (al : List (String × String)) (ua : Dict Value) (u0 : UserRec)
    (hc : s.COGNITO_CREATE_UNKNOWN_USERS.getD true = true)
    (hco : coerceIds (known_attrs_of mapping fields al) = .ok ua)
    (hfind : db.users.find? (fun u => u.username == username &&
        u.is_staff == (s.COGNITO_ALLOW_BACKEND_ACCESS.getD false)) = some u0) :
    get_user_obj mapping s fields db rg username al =
      .ok (some { record := updatedUser u0 ua
                    (db.groupNames.filter (fun g => rg.contains g)),
                  extras := extra_attrs_of mapping fields al },
           { users := db.users.map (fun x =>
                if x.username == username &&
                    x.is_staff == (s.COGNITO_ALLOW_BACKEND_ACCESS.getD false)
                then updatedUser u0 ua
                    (db.groupNames.filter (fun g => rg.contains g))
                else x),
             groupNames := db.groupNames }) := by
  have hp := List.find?_some hfind
  simp only [Bool.and_eq_true, beq_iff_eq] at hp
  have hu0u : u0.username = username := hp.1
  have hu0s : u0.is_staff = s.COGNITO_ALLOW_BACKEND_ACCESS.getD false := hp.2
  simp only [get_user_obj, hco, hc, if_true, update_or_create, hfind,
    storeUser, updatedUser]
  rw [map_store_twice db.users _ _ _ _
      (by rw [hu0u, hu0s, beq_self_eq_true, beq_self_eq_true]; rfl)
      (fun x => by rw [hu0u, hu0s])]

theorem get_user_obj_coerce_error (mapping : Dict String) (s : Settings)
    (fields : List Field) (db : DB) (rg : List String) (username : String)
    (al : List (String × String)) (e : PyErr)
    (hco : coerceIds (known_attrs_of mapping fields al) = .error e) :
    get_user_obj mapping s fields db rg username al = .error e := by
  simp only [get_user_obj, hco]

theorem get_user_obj_update_found (mapping : Dict String) (s : Settings)
    (fields : List Field) (db : DB) (rg : List String) (username : String)
    (al : List (String × String)) (ua : Dict Value) (u0 : UserRec)
    (hc : s.COGNITO_CREATE_UNKNOWN_USERS.getD true = false)
    (hco : coerceIds (known_attrs_of mapping fields al) = .ok ua)
    (hfind : db.users.find? (fun u => u.username == username) = some u0) :
    get_user_obj mapping s fields db rg username al =
      .ok (some { record := { u0 with attrs := dsetAll u0.attrs ua },
                  extras := extra_attrs_of mapping fields al },
           { users := db.users.map (fun x =>
                if x.username == username
                then { u0 with attrs := dsetAll u0.attrs ua } else x),
             groupNames := db.groupNames }) := by
  simp only [get_user_obj, hco, hc, Bool.false_eq_true, if_false, hfind]

theorem get_user_obj_update_missing (mapping : Dict String) (s : Settings)
    (fields : List Field) (db : DB) (rg : List String) (username : String)
    (al : List (String × String)) (ua : Dict Value)
    (hc : s.COGNITO_CREATE_UNKNOWN_USERS.getD true = false)
    (hco : coerceIds (known_attrs_of mapping fields al) = .ok ua)
    (hfind : db.users.find? (fun u => u.username == username) = none) :
    get_user_obj mapping s fields db rg username al = .ok (none, db) := by
  simp only [get_user_obj, hco, hc, Bool.false_eq_true, if_false, hfind]

theorem get_user_obj_create_conflict (mapping : Dict String) (s : Settings)
    (fields : List Field) (db : DB) (rg : List String) (username : String)
    (al : List (String × String)) (ua : Dict Value)
    (hc : s.COGNITO_CREATE_UNKNOWN_USERS.getD true = true)
    (hco : coerceIds (known_attrs_of mapping fields al) = .ok ua)
    (hfind : db.users.find? (fun u => u.username == username &&
        u.is_staff == (s.COGNITO_ALLOW_BACKEND_ACCESS.getD false)) = none)
    (hany : db.users.any (fun u => u.username == username) = true) :
    get_user_obj mapping s fields db rg username al
      = .error (.integrityError username) := by
  simp only [get_user_obj, hco, hc, if_true, update_or_create, hfind, hany]

/-! ### Claim theorems -/

/-- C3 (code bug): the staff flag is passed to update_or_create as a lookup
keyword rather than inside defaults, so the local record is looked up by
username AND staff flag.  With an existing record for alice whose staff flag
(true) differs from the configured one (setting absent, hence false) the
record keyed by the username alone is not updated: the lookup misses and the
attempted creation of a second alice row violates the unique-username
constraint of the user model, raising IntegrityError. -/
theorem provisioning_staff_flag_in_lookup_bug :
    get_user_obj (loadAttrMapping sDefault) sDefault fieldsStd dbAlice ["g2"]
        "alice" [("email", "a@x.com")]
      = .error (.integrityError "alice") := by rfl

/-- C4: with create-unknown-users on and no existing record for the
username, provisioning appends exactly one new record, returned as the user
object, whose staff flag is the configured backend-access flag (false when
the setting is absent). -/
theorem new_record_staff_flag (mapping : Dict String) (s : Settings)
    (fields : List Field) (db : DB) (rg : List String) (username : String)
    (al : List (String × String)) (uo : UserObj) (db' : DB)
    (hc : s.COGNITO_CREATE_UNKNOWN_USERS.getD true = true)
    (habs : ∀ u ∈ db.users, u.username ≠ username)
    (h : get_user_obj mapping s fields db rg username al = .ok (some uo, db')) :
    uo.record.username = username ∧
    uo.record.is_staff = s.COGNITO_ALLOW_BACKEND_ACCESS.getD false ∧
    db'.users = db.users ++ [uo.record] := by
  cases hco : coerceIds (known_attrs_of mapping fields al) with
  | error e =>
      rw [get_user_obj_coerce_error mapping s fields db rg username al e hco]
        at h
      exact Except.noConfusion h
  | ok ua =>
      rw [get_user_obj_create_fresh mapping s fields db rg username al ua hc
        hco habs] at h
      simp only [Except.ok.injEq, Prod.mk.injEq, Option.some.injEq] at h
      obtain ⟨h1, h2⟩ := h
      subst h1
      subst h2
      exact ⟨rfl, rfl, rfl⟩

/-- C4 witness: provisioning bob into a table that only has alice appends a
new non-staff bob record. -/
theorem new_record_staff_flag_witness :
    ((sDefault.COGNITO_CREATE_UNKNOWN_USERS.getD true = true) ∧
     (∀ u ∈ dbAlice.users, u.username ≠ "bob")) ∧
    (bobProvisioned.record.username = "bob" ∧
     bobProvisioned.record.is_staff
        = sDefault.COGNITO_ALLOW_BACKEND_ACCESS.getD false ∧
     dbAfterBob.users = dbAlice.users ++ [bobProvisioned.record]) :=
  ⟨⟨rfl, by decide⟩,
   new_record_staff_flag (loadAttrMapping sDefault) sDefault fieldsStd
     dbAlice ["g1"] "bob" [("email", "b@x"), ("custom", "z")]
     bobProvisioned dbAfterBob rfl (by decide) (by rfl)⟩

/-- C8: with create-unknown-users off and no record for the username,
provisioning returns no user with the store untouched, as a normal
non-error outcome. -/
theorem updates_only_missing_username (mapping : Dict String) (s : Settings)
    (fields : List Field) (db : DB) (rg : List String) (username : String)
    (al : List (String × String)) (ua : Dict Value)
    (hc : s.COGNITO_CREATE_UNKNOWN_USERS.getD true = false)
    (hco : coerceIds (known_attrs_of mapping fields al) = .ok ua)
    (habs : ∀ u ∈ db.users, u.username ≠ username) :
    get_user_obj mapping s fields db rg username al = .ok (none, db) := by
  apply get_user_obj_update_missing mapping s fields db rg username al ua hc
    hco
  rw [List.find?_eq_none]
  intro x hx
  simp only [beq_iff_eq]
  exact habs x hx

/-- C8 witness: under the updates-only policy, authenticating the unknown
carol yields no user and leaves the table exactly as it was. -/
theorem updates_only_missing_username_witness :
    ((sNoCreate.COGNITO_CREATE_UNKNOWN_USERS.getD true = false) ∧
     (coerceIds (known_attrs_of (loadAttrMapping sDefault) fieldsStd
        [("email", "c@x")]) = .ok [("email", Value.str "c@x")]) ∧
     (∀ u ∈ dbAlice.users, u.username ≠ "carol")) ∧
    get_user_obj (loadAttrMapping sDefault) sNoCreate fieldsStd dbAlice
        ["g1"] "carol" [("email", "c@x")] = .ok (none, dbAlice) :=
  ⟨⟨rfl, by rfl, by decide⟩,
   updates_only_missing_username (loadAttrMapping sDefault) sNoCreate
     fieldsStd dbAlice ["g1"] "carol" [("email", "c@x")]
     [("email", Value.str "c@x")] rfl (by rfl) (by decide)⟩

/-- C10: under the updates-only policy the remote group listing is never
consulted — the outcome is the same whatever that listing would return —
and no group memberships change: every record in the resulting table has
the username and group set of a record already present before the call. -/
theorem updates_only_groups_untouched (mapping : Dict String) (s : Settings)
    (fields : List Field) (db : DB) (rg1 rg2 : List String)
    (username : String) (al : List (String × String))
    (hc : s.COGNITO_CREATE_UNKNOWN_USERS.getD true = false) :
    (get_user_obj mapping s fields db rg1 username al
      = get_user_obj mapping s fields db rg2 username al) ∧
    (∀ u? db', get_user_obj mapping s fields db rg1 username al
        = .ok (u?, db') →
      db'.groupNames = db.groupNames ∧
      ∀ u' ∈ db'.users, ∃ u ∈ db.users,
        u'.username = u.username ∧ u'.groups = u.groups) := by
  cases hco : coerceIds (known_attrs_of mapping fields al) with
  | error e =>
      have h1 := get_user_obj_coerce_error mapping s fields db rg1 username
        al e hco
      have h2 := get_user_obj_coerce_error mapping s fields db rg2 username
        al e hco
      refine ⟨h1.trans h2.symm, ?_⟩
      intro u? db' hok
      rw [h1] at hok
      exact Except.noConfusion hok
  | ok ua =>
      cases hfind : db.users.find? (fun u => u.username == username) with
      | none =>
          have h1 := get_user_obj_update_missing mapping s fields db rg1
            username al ua hc hco hfind
          have h2 := get_user_obj_update_missing mapping s fields db rg2
            username al ua hc hco hfind
          refine ⟨h1.trans h2.symm, ?_⟩
          intro u? db' hok
          rw [h1] at hok
          simp only [Except.ok.injEq, Prod.mk.injEq] at hok
          obtain ⟨_, h3⟩ := hok
          subst h3
          exact ⟨rfl, fun u' hu' => ⟨u', hu', rfl, rfl⟩⟩
      | some u0 =>
          have h1 := get_user_obj_update_found mapping s fields db rg1
            username al ua u0 hc hco hfind
          have h2 := get_user_obj_update_found mapping s fields db rg2
            username al ua u0 hc hco hfind
          refine ⟨h1.trans h2.symm, ?_⟩
          intro u? db' hok
          rw [h1] at hok
          simp only [Except.ok.injEq, Prod.mk.injEq] at hok
          obtain ⟨_, h3⟩ := hok
          subst h3
          refine ⟨rfl, ?_⟩
          intro u' hu'
          obtain ⟨x, hx, rfl⟩ := List.mem_map.1 hu'
          by_cases hpx : (x.username == username) = true
          · rw [if_pos hpx]
            exact ⟨u0, List.mem_of_find?_eq_some hfind, rfl, rfl⟩
          · rw [if_neg hpx]
            exact ⟨x, hx, rfl, rfl⟩

/-- C10 witness: updating alice with two different remote group lists gives
identical results, and the resulting table keeps every username with its
previous group set. -/
theorem updates_only_groups_untouched_witness :
    (sNoCreate.COGNITO_CREATE_UNKNOWN_USERS.getD true = false) ∧
    (get_user_obj (loadAttrMapping sDefault) sNoCreate fieldsStd dbAlice
        ["g1"] "alice" [("email", "a2@x")]
      = get_user_obj (loadAttrMapping sDefault) sNoCreate fieldsStd dbAlice
        ["g2", "zzz"] "alice" [("email", "a2@x")]) :=
  ⟨rfl,
   (updates_only_groups_untouched (loadAttrMapping sDefault) sNoCreate
     fieldsStd dbAlice ["g1"] ["g2", "zzz"] "alice"
     [("email", "a2@x")] rfl).1⟩

/-- C5 counterexample: in the mapped attribute set the key foo_id ends in
"_id" and carries the non-numeric value "abc", yet provisioning succeeds and
the value survives as an uncoerced string on the returned object: keys that
fail the schema partition are deleted from user_attrs before the coercion
loop runs, so not every mapped key ending in "_id" is coerced and no
coercion error is raised for them. -/
theorem extra_id_key_not_coerced :
    pyInt "abc" = none ∧
    strEndsWith "foo_id" "_id" = true ∧
    dget (mapped_attrs (loadAttrMapping sDefault) [("foo_id", "abc")]) "foo_id"
      = some (Value.str "abc") ∧
    get_user_obj (loadAttrMapping sDefault) sDefault fieldsStd dbEmpty []
        "bob" [("foo_id", "abc")]
      = .ok (some { record :=
                      { username := "bob", is_staff := false, attrs := [],
                        groups := [] },
                    extras := [("foo_id", Value.str "abc")] },
            { users := [{ username := "bob", is_staff := false, attrs := [],
                          groups := [] }],
              groupNames := ["g1"] }) :=
  ⟨rfl, rfl, rfl, rfl⟩

/-- C5 (amended): in the schema-matching attribute set that survives the
partition — the set the field assignment consumes — every key ending in
"_id" has its value coerced with int() and every other entry is passed
through unchanged, that being the only value transformation; when a coerced
value is non-numeric, the ValueError escapes get_user_obj uncaught.  Keys
removed as extras are never coerced (see the counterexample). -/
theorem id_suffix_coercion (mapping : Dict String) (s : Settings)
    (fields : List Field) (db : DB) (rg : List String) (username : String)
    (al : List (String × String)) :
    (∀ r, coerceIds (known_attrs_of mapping fields al) = .ok r →
      List.Forall₂ (fun p q => p.1 = q.1 ∧
        (if strEndsWith p.1 "_id" then
          ∃ i, pyIntV p.2 = Except.ok i ∧ q.2 = Value.int i
         else q.2 = p.2)) (known_attrs_of mapping fields al) r) ∧
    (∀ e, coerceIds (known_attrs_of mapping fields al) = .error e →
      get_user_obj mapping s fields db rg username al = .error e ∧
      ∃ v, e = PyErr.valueError v) := by
  constructor
  · intro r hr
    exact coerceIds_ok_forall₂ _ r hr
  · intro e he
    refine ⟨get_user_obj_coerce_error mapping s fields db rg username al e
      he, ?_⟩
    obtain ⟨sv, hsv, _⟩ := coerceIds_error_shape _ e he
    exact ⟨Value.str sv, hsv⟩

/-- C5 witness: on the surviving set [manager_id ↦ "17", email ↦ "e"] the
coercion turns exactly the manager_id value into the integer 17 and leaves
the email value untouched. -/
theorem id_suffix_coercion_witness :
    (coerceIds (known_attrs_of (loadAttrMapping sDefault) fieldsStd
        [("manager_id", "17"), ("email", "e")])
      = .ok [("manager_id", Value.int 17), ("email", Value.str "e")]) ∧
    List.Forall₂ (fun p q => p.1 = q.1 ∧
        (if strEndsWith p.1 "_id" then
          ∃ i, pyIntV p.2 = Except.ok i ∧ q.2 = Value.int i
         else q.2 = p.2))
      (known_attrs_of (loadAttrMapping sDefault) fieldsStd
        [("manager_id", "17"), ("email", "e")])
      [("manager_id", Value.int 17), ("email", Value.str "e")] :=
  ⟨by rfl,
   (id_suffix_coercion (loadAttrMapping sDefault) sDefault fieldsStd dbEmpty
      [] "bob" [("manager_id", "17"), ("email", "e")]).1
     [("manager_id", Value.int 17), ("email", Value.str "e")] (by rfl)⟩

/-- C9 counterexample: the attribute translation table is captured when the
CognitoUser class body runs at module load, not read at call time.  Two
calls whose call-time settings differ only in COGNITO_ATTR_MAPPING behave
identically, while loading the class under the other table changes the
outcome, so the behaviour does not reflect the table current at the call. -/
theorem attr_mapping_read_at_load_time :
    (abstract_authenticate (loadAttrMapping sDefault) sMap fieldsStd dbEmpty
        (.success [("email", "E")] tokensT) [] "bob"
      = abstract_authenticate (loadAttrMapping sDefault) sDefault fieldsStd
          dbEmpty (.success [("email", "E")] tokensT) [] "bob") ∧
    (abstract_authenticate (loadAttrMapping sMap) sMap fieldsStd dbEmpty
        (.success [("email", "E")] tokensT) [] "bob"
      ≠ abstract_authenticate (loadAttrMapping sDefault) sMap fieldsStd
          dbEmpty (.success [("email", "E")] tokensT) [] "bob") :=
  ⟨rfl, by decide⟩

/-- C9 (amended): the pool identifier, app identifier, optional service
credentials, create-unknown-users flag and staff flag are taken from the
settings in force at each call — the client is built from the call-time
settings and changing the call-time policy flag changes the outcome — but
the attribute name-translation table is the class attribute captured at
module load: replacing COGNITO_ATTR_MAPPING in the call-time settings never
changes a call's behaviour. -/
theorem config_read_at_call_time (mapping : Dict String) (s : Settings)
    (fields : List Field) (db : DB) (remote : RemoteAuth) (rg : List String)
    (username : String) (x : Option (Dict String)) :
    (abstract_authenticate mapping { s with COGNITO_ATTR_MAPPING := x }
        fields db remote rg username
      = abstract_authenticate mapping s fields db remote rg username) ∧
    ((abstract_authenticate mapping s fields db remote rg username).1
      = { user_pool_id := s.COGNITO_USER_POOL_ID,
          id_client := s.COGNITO_APP_ID,
          access_key := s.AWS_ACCESS_KEY_ID,
          secret_key := s.AWS_SECRET_ACCESS_KEY,
          username := username }) ∧
    loadAttrMapping s = s.COGNITO_ATTR_MAPPING.getD defaultAttrMapping ∧
    get_user_obj (loadAttrMapping sDefault) sNoCreate fieldsStd dbEmpty []
        "bob" [("email", "E")]
      ≠ get_user_obj (loadAttrMapping sDefault) sDefault fieldsStd dbEmpty []
        "bob" [("email", "E")] := by
  refine ⟨?_, ?_, rfl, by decide⟩
  · cases remote with
    | success al t => rfl
    | failure e => rfl
  · cases remote with
    | success al t =>
        unfold abstract_authenticate
        dsimp only
        cases get_user_obj mapping s fields db rg username al with
        | error e => rfl
        | ok p =>
            obtain ⟨u?, db1⟩ := p
            cases u? <;> rfl
    | failure e =>
        unfold abstract_authenticate
        dsimp only
        cases handle_error_response e <;> rfl

/-- C6: on a successful provisioning the extra attributes are exactly the
mapped entries whose keys fall outside the local schema; they live only on
the returned object; and at any key outside the schema, every persisted
record's stored value is either absent or a value some record already held
before the call — extras are never persisted and never appear as schema
field writes. -/
theorem extras_never_persisted (mapping : Dict String) (s : Settings)
    (fields : List Field) (db : DB) (rg : List String) (username : String)
    (al : List (String × String)) (uo : UserObj) (db' : DB)
    (h : get_user_obj mapping s fields db rg username al = .ok (some uo, db')) :
    uo.extras = extra_attrs_of mapping fields al ∧
    (∀ p ∈ uo.extras, (django_fields fields).contains p.1 = false) ∧
    (∀ u' ∈ db'.users, ∀ k, (django_fields fields).contains k = false →
      dget u'.attrs k = none ∨
      ∃ u ∈ db.users, dget u'.attrs k = dget u.attrs k) := by
  have hext : ∀ p ∈ extra_attrs_of mapping fields al,
      (django_fields fields).contains p.1 = false := by
    intro p hp
    have h2 := (List.mem_filter.1 hp).2
    simpa using h2
  cases hco : coerceIds (known_attrs_of mapping fields al) with
  | error e =>
      rw [get_user_obj_coerce_error mapping s fields db rg username al e hco]
        at h
      exact Except.noConfusion h
  | ok ua =>
      have hnotmem : ∀ k, (django_fields fields).contains k = false →
          k ∉ dkeys ua := by
        intro k hk hmem
        rw [dkeys_coerceIds _ _ hco] at hmem
        have h2 := dkeys_known_attrs_contains mapping fields al k hmem
        rw [hk] at h2
        exact Bool.noConfusion h2
      have hpres : ∀ (d : Dict Value) k,
          (django_fields fields).contains k = false →
          dget (dsetAll d ua) k = dget d k :=
        fun d k hk => dget_dsetAll_not_mem ua d k (hnotmem k hk)
      by_cases hcreate : s.COGNITO_CREATE_UNKNOWN_USERS.getD true = true
      · cases hfind : db.users.find? (fun u => u.username == username &&
            u.is_staff == (s.COGNITO_ALLOW_BACKEND_ACCESS.getD false)) with
        | some u0 =>
            rw [get_user_obj_create_found mapping s fields db rg username al
              ua u0 hcreate hco hfind] at h
            simp only [Except.ok.injEq, Prod.mk.injEq, Option.some.injEq]
              at h
            obtain ⟨h1, h2⟩ := h
            subst h1
            subst h2
            refine ⟨rfl, hext, ?_⟩
            intro u' hu' k hk
            obtain ⟨x, hx, rfl⟩ := List.mem_map.1 hu'
            by_cases hpx : (x.username == username &&
                x.is_staff == (s.COGNITO_ALLOW_BACKEND_ACCESS.getD false))
                  = true
            · rw [if_pos hpx]
              right
              exact ⟨u0, List.mem_of_find?_eq_some hfind,
                hpres u0.attrs k hk⟩
            · rw [if_neg hpx]
              right
              exact ⟨x, hx, rfl⟩
        | none =>
            by_cases hany : db.users.any (fun u => u.username == username)
                = true
            · rw [get_user_obj_create_conflict mapping s fields db rg
                username al ua hcreate hco hfind hany] at h
              exact Except.noConfusion h
            · have habs : ∀ u ∈ db.users, u.username ≠ username := by
                intro u hu
                have h3 := List.any_eq_false.1 (Bool.eq_false_iff.2 hany) u hu
                simpa using h3
              rw [get_user_obj_create_fresh mapping s fields db rg username
                al ua hcreate hco habs] at h
              simp only [Except.ok.injEq, Prod.mk.injEq, Option.some.injEq]
                at h
              obtain ⟨h1, h2⟩ := h
              subst h1
              subst h2
              refine ⟨rfl, hext, ?_⟩
              intro u' hu' k hk
              rcases List.mem_append.1 hu' with hl | hr
              · right
                exact ⟨u', hl, rfl⟩
              · left
                rw [List.mem_singleton.1 hr]
                show dget (dsetAll [] ua) k = none
                rw [hpres [] k hk]
                rfl
      · have hcreate' : s.COGNITO_CREATE_UNKNOWN_USERS.getD true = false :=
          Bool.eq_false_iff.2 hcreate
        cases hfind : db.users.find? (fun u => u.username == username) with
        | some u0 =>
            rw [get_user_obj_update_found mapping s fields db rg username al
              ua u0 hcreate' hco hfind] at h
            simp only [Except.ok.injEq, Prod.mk.injEq, Option.some.injEq]
              at h
            obtain ⟨h1, h2⟩ := h
            subst h1
            subst h2
            refine ⟨rfl, hext, ?_⟩
            intro u' hu' k hk
            obtain ⟨x, hx, rfl⟩ := List.mem_map.1 hu'
            by_cases hpx : (x.username == username) = true
            · rw [if_pos hpx]
              right
              exact ⟨u0, List.mem_of_find?_eq_some hfind,
                hpres u0.attrs k hk⟩
            · rw [if_neg hpx]
              right
              exact ⟨x, hx, rfl⟩
        | none =>
            rw [get_user_obj_update_missing mapping s fields db rg username
              al ua hcreate' hco hfind] at h
            simp at h

/-- C6 witness: provisioning bob with one schema attribute and one unknown
attribute keeps the unknown one only on the object; no table row stores a
non-schema key. -/
theorem extras_never_persisted_witness :
    (get_user_obj (loadAttrMapping sDefault) sDefault fieldsStd dbAlice
        ["g1"] "bob" [("email", "b@x"), ("custom", "z")]
      = .ok (some bobProvisioned, dbAfterBob)) ∧
    (bobProvisioned.extras = extra_attrs_of (loadAttrMapping sDefault)
        fieldsStd [("email", "b@x"), ("custom", "z")] ∧
     (∀ p ∈ bobProvisioned.extras,
        (django_fields fieldsStd).contains p.1 = false) ∧
     (∀ u' ∈ dbAfterBob.users, ∀ k,
        (django_fields fieldsStd).contains k = false →
        dget u'.attrs k = none ∨
        ∃ u ∈ dbAlice.users, dget u'.attrs k = dget u.attrs k)) :=
  ⟨by rfl,
   extras_never_persisted (loadAttrMapping sDefault) sDefault fieldsStd
     dbAlice ["g1"] "bob" [("email", "b@x"), ("custom", "z")]
     bobProvisioned dbAfterBob (by rfl)⟩

/-- C7: under the create policy (with usernames unique in the table, as the
user model enforces), a successful provisioning only adds group
memberships: every record keeps all the groups it had, and every local
group named in the remote provider's list is in the returned user's group
set. -/
theorem group_sync_additive (mapping : Dict String) (s : Settings)
    (fields : List Field) (db : DB) (rg : List String) (username : String)
    (al : List (String × String)) (uo : UserObj) (db' : DB)
    (hc : s.COGNITO_CREATE_UNKNOWN_USERS.getD true = true)
    (hnodup : db.users.Pairwise (fun a b => a.username ≠ b.username))
    (h : get_user_obj mapping s fields db rg username al = .ok (some uo, db')) :
    (∀ u ∈ db.users, ∃ u' ∈ db'.users,
        u'.username = u.username ∧ ∀ g ∈ u.groups, g ∈ u'.groups) ∧
    (∀ g ∈ db.groupNames, g ∈ rg → g ∈ uo.record.groups) := by
  have hsym : Symmetric (fun a b : UserRec => a.username ≠ b.username) :=
    fun a b hab => hab.symm
  cases hco : coerceIds (known_attrs_of mapping fields al) with
  | error e =>
      rw [get_user_obj_coerce_error mapping s fields db rg username al e hco]
        at h
      exact Except.noConfusion h
  | ok ua =>
      cases hfind : db.users.find? (fun u => u.username == username &&
          u.is_staff == (s.COGNITO_ALLOW_BACKEND_ACCESS.getD false)) with
      | some u0 =>
          rw [get_user_obj_create_found mapping s fields db rg username al
            ua u0 hc hco hfind] at h
          simp only [Except.ok.injEq, Prod.mk.injEq, Option.some.injEq] at h
          obtain ⟨h1, h2⟩ := h
          subst h1
          subst h2
          have hu0mem := List.mem_of_find?_eq_some hfind
          have hp := List.find?_some hfind
          simp only [Bool.and_eq_true, beq_iff_eq] at hp
          constructor
          · intro u hu
            by_cases hpu : (u.username == username &&
                u.is_staff == (s.COGNITO_ALLOW_BACKEND_ACCESS.getD false))
                  = true
            · have hpu' := hpu
              simp only [Bool.and_eq_true, beq_iff_eq] at hpu'
              have hueq : u = u0 := by
                by_contra hne
                exact List.Pairwise.forall hsym hnodup hu hu0mem hne
                  (hpu'.1.trans hp.1.symm)
              refine ⟨updatedUser u0 ua
                  (db.groupNames.filter (fun g => rg.contains g)),
                List.mem_map.2 ⟨u, hu, if_pos hpu⟩, hp.1.trans hpu'.1.symm,
                ?_⟩
              intro g hg
              rw [hueq] at hg
              exact mem_addGroups_left _ _ g hg
            · exact ⟨u, List.mem_map.2 ⟨u, hu, if_neg hpu⟩, rfl,
                fun g hg => hg⟩
          · intro g hgN hgR
            apply mem_addGroups_right
            exact List.mem_filter.2 ⟨hgN, by simpa using hgR⟩
      | none =>
          by_cases hany : db.users.any (fun u => u.username == username)
              = true
          · rw [get_user_obj_create_conflict mapping s fields db rg username
              al ua hc hco hfind hany] at h
            exact Except.noConfusion h
          · have habs : ∀ u ∈ db.users, u.username ≠ username := by
              intro u hu
              have h3 := List.any_eq_false.1 (Bool.eq_false_iff.2 hany) u hu
              simpa using h3
            rw [get_user_obj_create_fresh mapping s fields db rg username al
              ua hc hco habs] at h
            simp only [Except.ok.injEq, Prod.mk.injEq, Option.some.injEq]
              at h
            obtain ⟨h1, h2⟩ := h
            subst h1
            subst h2
            constructor
            · intro u hu
              exact ⟨u, List.mem_append_left _ hu, rfl, fun g hg => hg⟩
            · intro g hgN hgR
              apply mem_addGroups_right
              exact List.mem_filter.2 ⟨hgN, by simpa using hgR⟩

/-- C7 witness: syncing alice (already in g1) against the remote list
[g2, g3] keeps g1 and adds the local group g2; the unknown remote g3 adds
nothing. -/
theorem group_sync_additive_witness :
    ((sDefault.COGNITO_CREATE_UNKNOWN_USERS.getD true = true) ∧
     dbAlice2.users.Pairwise (fun a b => a.username ≠ b.username) ∧
     (get_user_obj (loadAttrMapping sDefault) sDefault fieldsStd dbAlice2
        ["g2", "g3"] "alice" [("email", "a@x")]
       = .ok (some aliceSynced, dbAliceSynced))) ∧
    ((∀ u ∈ dbAlice2.users, ∃ u' ∈ dbAliceSynced.users,
        u'.username = u.username ∧ ∀ g ∈ u.groups, g ∈ u'.groups) ∧
     (∀ g ∈ dbAlice2.groupNames, g ∈ ["g2", "g3"] →
        g ∈ aliceSynced.record.groups)) :=
  ⟨⟨rfl, by simp [dbAlice2], by rfl⟩,
   group_sync_additive (loadAttrMapping sDefault) sDefault fieldsStd
     dbAlice2 ["g2", "g3"] "alice" [("email", "a@x")] aliceSynced
     dbAliceSynced rfl (by simp [dbAlice2]) (by rfl)⟩

/-- C9 witness: the amended reading instantiated at a concrete call — a
call-time mapping replacement leaves the call unchanged while the policy
flag is honoured from the call-time settings. -/
theorem config_read_at_call_time_witness :
    (abstract_authenticate (loadAttrMapping sDefault)
        { sDefault with COGNITO_ATTR_MAPPING := some [("email", "last_name")] }
        fieldsStd dbEmpty (.success [("email", "E")] tokensT) [] "bob"
      = abstract_authenticate (loadAttrMapping sDefault) sDefault fieldsStd
        dbEmpty (.success [("email", "E")] tokensT) [] "bob") ∧
    ((abstract_authenticate (loadAttrMapping sDefault) sDefault fieldsStd
        dbEmpty (.success [("email", "E")] tokensT) [] "bob").1
      = { user_pool_id := sDefault.COGNITO_USER_POOL_ID,
          id_client := sDefault.COGNITO_APP_ID,
          access_key := sDefault.AWS_ACCESS_KEY_ID,
          secret_key := sDefault.AWS_SECRET_ACCESS_KEY,
          username := "bob" }) ∧
    loadAttrMapping sDefault
      = sDefault.COGNITO_ATTR_MAPPING.getD defaultAttrMapping ∧
    get_user_obj (loadAttrMapping sDefault) sNoCreate fieldsStd dbEmpty []
        "bob" [("email", "E")]
      ≠ get_user_obj (loadAttrMapping sDefault) sDefault fieldsStd dbEmpty []
        "bob" [("email", "E")] :=
  config_read_at_call_time (loadAttrMapping sDefault) sDefault fieldsStd
    dbEmpty (.success [("email", "E")] tokensT) [] "bob"
    (some [("email", "last_name")])

/-- C1: for a remote error raised by the credential check, authenticate
returns no user exactly when the error code is NotAuthorizedException or
UserNotFoundException; for any other code the very same error object is
re-raised (the .client constructor of the result type carries the object
unchanged, with no wrapping or substitution of its contents). -/
theorem backend_remote_error_classification (mapping : Dict String)
    (s : Settings) (fields : List Field) (db : DB) (rg : List String)
    (username : String) (e : ClientError) :
    ((abstract_authenticate mapping s fields db (.failure e) rg username).2
        = .ok (none, db)
      ↔ (e.code = UNAUTHORIZED_ERROR_CODE ∨ e.code = USER_NOT_FOUND_ERROR_CODE))
    ∧ (¬(e.code = UNAUTHORIZED_ERROR_CODE ∨ e.code = USER_NOT_FOUND_ERROR_CODE) →
        (abstract_authenticate mapping s fields db (.failure e) rg username).2
          = .error (.client e)) := by
  by_cases hc : ([UNAUTHORIZED_ERROR_CODE, USER_NOT_FOUND_ERROR_CODE].contains
      e.code) = true
  · have hor : e.code = UNAUTHORIZED_ERROR_CODE ∨
        e.code = USER_NOT_FOUND_ERROR_CODE := by simpa using hc
    have hif : handle_error_response e = .ok none := by
      unfold handle_error_response
      rw [if_pos hc]
    refine ⟨?_, fun hno => absurd hor hno⟩
    simp only [abstract_authenticate, hif]
    exact iff_of_true trivial hor
  · have hor : ¬(e.code = UNAUTHORIZED_ERROR_CODE ∨
        e.code = USER_NOT_FOUND_ERROR_CODE) := fun h => hc (by simpa using h)
    have hif : handle_error_response e = .error e := by
      unfold handle_error_response
      rw [if_neg hc]
    refine ⟨?_, fun _ => ?_⟩
    · simp only [abstract_authenticate, hif]
      constructor
      · intro h
        exact absurd h (by simp)
      · intro h
        exact absurd h hor
    · simp only [abstract_authenticate, hif]

/-- C1 witness: a throttling error re-raises the very same error object, and
its code is neither of the two expected authentication-failure codes. -/
theorem backend_remote_error_classification_witness :
    (¬(("ThrottlingException" : String) = UNAUTHORIZED_ERROR_CODE ∨
        ("ThrottlingException" : String) = USER_NOT_FOUND_ERROR_CODE)) ∧
    (abstract_authenticate (loadAttrMapping sDefault) sDefault fieldsStd
        dbEmpty (.failure { code := "ThrottlingException", message := "m" })
        [] "bob").2
      = .error (.client { code := "ThrottlingException", message := "m" }) :=
  ⟨by decide,
   (backend_remote_error_classification (loadAttrMapping sDefault) sDefault
      fieldsStd dbEmpty [] "bob"
      { code := "ThrottlingException", message := "m" }).2 (by decide)⟩

/-- C2: when the session-aware backend returns a user, the session afterwards
holds that user's three tokens under the fixed keys and has been saved; when
it returns no user, the session is exactly as before the call. -/
theorem session_tokens_on_success (mapping : Dict String) (s : Settings)
    (fields : List Field) (db : DB) (remote : RemoteAuth)
    (rg : List String) (session : Session) (username : String) :
    (∀ u db' sess',
        cognito_backend_authenticate mapping s fields db remote rg session
            username = .ok (some u, db', sess') →
        dget sess'.data "ACCESS_TOKEN" = some u.access_token ∧
        dget sess'.data "ID_TOKEN" = some u.id_token ∧
        dget sess'.data "REFRESH_TOKEN" = some u.refresh_token ∧
        sess'.saved = true) ∧
    (∀ db' sess',
        cognito_backend_authenticate mapping s fields db remote rg session
            username = .ok (none, db', sess') →
        sess' = session) := by
  constructor
  · intro u db' sess' h
    unfold cognito_backend_authenticate at h
    cases hab : (abstract_authenticate mapping s fields db remote rg username).2 with
    | error e =>
        rw [hab] at h
        exact Except.noConfusion h
    | ok p =>
        obtain ⟨u?, db1⟩ := p
        rw [hab] at h
        cases u? with
        | none => simp at h
        | some w =>
            simp only [Except.ok.injEq, Prod.mk.injEq, Option.some.injEq] at h
            obtain ⟨h1, _h2, h3⟩ := h
            subst h1
            subst h3
            dsimp only
            refine ⟨?_, ?_, ?_, rfl⟩
            · rw [dget_dset, if_neg (by decide), dget_dset,
                if_neg (by decide), dget_dset, if_pos rfl]
            · rw [dget_dset, if_neg (by decide), dget_dset, if_pos rfl]
            · rw [dget_dset, if_pos rfl]
  · intro db' sess' h
    unfold cognito_backend_authenticate at h
    cases hab : (abstract_authenticate mapping s fields db remote rg username).2 with
    | error e =>
        rw [hab] at h
        exact Except.noConfusion h
    | ok p =>
        obtain ⟨u?, db1⟩ := p
        rw [hab] at h
        cases u? with
        | none =>
            simp only [Except.ok.injEq, Prod.mk.injEq] at h
            exact h.2.2.symm
        | some w => simp at h

/-- C2 witness: a concrete successful authentication stores the three tokens
under the fixed keys and saves the session. -/
theorem session_tokens_on_success_witness :
    cognito_backend_authenticate (loadAttrMapping sDefault) sDefault fieldsStd
        dbEmpty (.success [("email", "b@x")] tokensT) [] sess0 "bob"
      = .ok (some bobUser, dbBob, sessBob) ∧
    (dget sessBob.data "ACCESS_TOKEN" = some bobUser.access_token ∧
     dget sessBob.data "ID_TOKEN" = some bobUser.id_token ∧
     dget sessBob.data "REFRESH_TOKEN" = some bobUser.refresh_token ∧
     sessBob.saved = true) :=
  ⟨by rfl,
   (session_tokens_on_success (loadAttrMapping sDefault) sDefault fieldsStd
      dbEmpty (.success [("email", "b@x")] tokensT) [] sess0 "bob").1
     bobUser dbBob sessBob (by rfl)⟩


end DjangoWarrant
